import Mathlib

/-!
Shallow embedding of the staking-backend logic of src/sent.py: staking
constants, the stake-checking helper, the lossless currency codec, the
registration key/signature checks, the registration storage model, and the
stake-validation part of the /validate endpoint, together with theorems
settling the specification claims about them.

Amounts are Python ints that are always non-negative on every reachable
state (they come from `parse_currency` and the bounds checks precede every
subtraction), so they are embedded as `Nat`; each place where this matters
is noted next to the definition.
-/

/-- MAX_STAKE (sent.py line 201).  The source literal is `120_000000000`,
i.e. 120 * 10^9 atomic units. -/
def MAX_STAKE : Nat := 120000000000

/-- MIN_OP_STAKE = MAX_STAKE // 4 (sent.py line 202). -/
def MIN_OP_STAKE : Nat := MAX_STAKE / 4

/-- MAX_STAKERS (sent.py line 203). -/
def MAX_STAKERS : Nat := 10

/-! Section: check_stakes (sent.py lines 779-801). -/

/-- The loop of `check_stakes` (lines 791-801).  `i` is the running index,
so the divisor is 4 for the first entry and `remaining_spots` afterwards.
The deficit message is the Python source's literal string: the source lacks
the `f` prefix on that one string (line 798), so the braces are not
interpolated and the raised message is this constant text.  On every call
reachable from `check_stakes` the divisor is positive and
`remaining_stake - stakes[i]` never underflows (the sum bound is checked
first), so `Nat` subtraction and division agree with Python here. -/
def check_stakes_loop : List Nat → Nat → Nat → Nat → Except String Unit
  | [], _, _, _ => .ok ()
  | s :: rest, i, remaining_stake, remaining_spots =>
    let reqd := remaining_stake / (if i = 0 then 4 else remaining_spots)
    if s < reqd then
      .error ("reserved stake [i] (\x7bstakers[i]\x7d) is too low (\x7bstakes[i]\x7d < \x7breqd\x7d)")
    else
      check_stakes_loop rest (i + 1) (remaining_stake - s) (remaining_spots - 1)

/-- Embedding of `check_stakes(stakes, total, stakers, max_stakers)` (lines 779-801):
five structural pre-checks in source order, then the proportional-minimum
loop.  Errors are the raised `ValueError` messages. -/
def check_stakes (stakes : List Nat) (total : Nat) (stakers : List Nat)
    (max_stakers : Nat) : Except String Unit :=
  if stakers.length ≠ stakes.length then
    .error ("s and S have different lengths")
  else if stakers.length < 1 then
    .error ("at least one s/S value pair is required")
  else if stakers.length > max_stakers then
    .error ("too many stakers (" ++ toString stakers.length ++ " > " ++ toString max_stakers ++ ")")
  else if stakes.sum > total then
    .error ("total stake is too large (" ++ toString stakes.sum ++ " > total)")
  else if ¬ stakers.Nodup then
    .error ("duplicate staking addresses in staker list")
  else
    check_stakes_loop stakes 0 total max_stakers

/-! Section: currency codec (sent.py lines 804-834).

Python strings over the alphabet this codec touches (decimal digits and the
dot) are embedded as lists over `PyChar`. -/

/-- One character of a currency string: a decimal digit or the dot. -/
inductive PyChar
  | digit (d : Nat)
  | dot
deriving DecidableEq, Repr

/-- Python `str(n)` as a digit list, most significant digit first;
`str(0) = "0"`. -/
def pyRepr (n : Nat) : List Nat :=
  if n = 0 then [0] else (Nat.digits 10 n).reverse

/-- Python `.rstrip("0")` on a digit list. -/
def rstrip0 (l : List Nat) : List Nat :=
  (l.reverse.dropWhile (fun d => d == 0)).reverse

/-- Python `f"\x7bn:0\x7bw\x7dd\x7d"`: zero-pad a digit list on the left to
width `w` (kept unchanged when already at least that long). -/
def padZeros (w : Nat) (l : List Nat) : List Nat :=
  List.replicate (w - l.length) 0 ++ l

/-- Embedding of `format_currency(units, decimal)` (lines 804-813): whole part by integer
division, fractional part zero-padded to `decimal` digits with trailing
zeros stripped, omitted entirely when the remainder is zero. -/
def format_currency (units : Nat) (decimal : Nat) : List PyChar :=
  let base := 10 ^ decimal
  let frac := units % base
  (pyRepr (units / base)).map PyChar.digit ++
    (if frac = 0 then []
     else PyChar.dot :: (rstrip0 (padZeros decimal (pyRepr frac))).map PyChar.digit)

/-- Python `val.split(".")`. -/
def splitDot : List PyChar → List (List PyChar)
  | [] => [[]]
  | PyChar.dot :: rest => [] :: splitDot rest
  | PyChar.digit d :: rest =>
    match splitDot rest with
    | [] => [[PyChar.digit d]]
    | piece :: pieces => (PyChar.digit d :: piece) :: pieces

/-- Python `re.fullmatch(r"\d+", p)`: non-empty and all digits. -/
def isDigitPiece (l : List PyChar) : Bool :=
  !l.isEmpty && l.all (fun c => match c with | PyChar.digit _ => true | PyChar.dot => false)

/-- Python `int(p)` on an all-digits piece (most significant digit first). -/
def pieceVal (l : List PyChar) : Nat :=
  l.foldl (fun acc c => 10 * acc + (match c with | PyChar.digit d => d | PyChar.dot => 0)) 0

/-- Embedding of `parse_currency(k, val, decimal)` (lines 816-834): split on the dot,
require at most two all-digit pieces, truncate a long fractional part to
`decimal` digits, right-pad a short one with zeros.  The error is the
raised `ParseError`'s `(field, reason)` pair.  The final catch-all arm is
unreachable: `splitDot` always returns at least one piece and the guard
bounds the count by two. -/
def parse_currency (k : String) (val : List PyChar) (decimal : Nat) :
    Except (String × String) Nat :=
  let pieces := splitDot val
  if pieces.length > 2 ∨ ¬ (pieces.all isDigitPiece = true) then
    .error (k, "Invalid currency amount")
  else
    match pieces with
    | [whole] => .ok (pieceVal whole * 10 ^ decimal + 0)
    | [whole, fracPiece] =>
      let frac :=
        if decimal < fracPiece.length then fracPiece.take decimal
        else if fracPiece.length < decimal then
          fracPiece ++ List.replicate (decimal - fracPiece.length) (PyChar.digit 0)
        else fracPiece
      .ok (pieceVal whole * 10 ^ decimal + pieceVal frac)
    | _ => .error (k, "Invalid currency amount")

/-! Section: registration key and signature checks (sent.py lines 487-512).

The Ed25519 point-validity and signature-verification primitives are
external capabilities (libsodium / PyNaCl); they are passed in as boolean
functions.  Byte strings are embedded as `List Nat`. -/

/-- Parsed parameters of a registration, as passed to
`check_reg_keys_sigs`. -/
structure RegParams where
  pubkey_ed25519 : List Nat
  pubkey_bls : List Nat
  sig_ed25519 : List Nat
  sig_bls : List Nat
  operator : List Nat
  contract : Option (List Nat)
deriving DecidableEq, Repr

/-- The distinct `SNSignatureValidationError` messages raised by
`check_reg_keys_sigs`, as a closed variant type.  `invalid_ed25519_pubkey`
is "Ed25519 pubkey is invalid", `invalid_bls_pubkey` is "BLS pubkey is
invalid", `invalid_operator_address` is "operator address is invalid",
`invalid_contract_address` is "contract address is invalid",
`invalid_ed25519_signature` is "Ed25519 signature is invalid". -/
inductive SigError
  | invalid_ed25519_pubkey
  | invalid_bls_pubkey
  | invalid_operator_address
  | invalid_contract_address
  | invalid_ed25519_signature
deriving DecidableEq, Repr

/-- Embedding of `check_reg_keys_sigs(params)` (lines 487-512).  `is_valid_point` embeds
`sodium.crypto_core_ed25519_is_valid_point`; `verify pk msg sig` embeds
`VerifyKey(pk).verify(msg, sig)` succeeding.  The final BLS branch of the
source is `if False: raise ...` and can never fire, so it has no case
here. -/
def check_reg_keys_sigs (is_valid_point : List Nat → Bool)
    (verify : List Nat → List Nat → List Nat → Bool) (p : RegParams) :
    Except SigError Unit :=
  if p.pubkey_ed25519.length ≠ 32 ∨ ¬ is_valid_point p.pubkey_ed25519 then
    .error .invalid_ed25519_pubkey
  else if p.pubkey_bls.length ≠ 64 then
    .error .invalid_bls_pubkey
  else if p.operator.length ≠ 20 then
    .error .invalid_operator_address
  else if p.contract.isSome ∧ (p.contract.getD []).length ≠ 20 then
    .error .invalid_contract_address
  else if ¬ verify p.pubkey_ed25519 (p.pubkey_ed25519 ++ p.pubkey_bls) p.sig_ed25519 then
    .error .invalid_ed25519_signature
  else
    .ok ()

/-! Section: registration storage (sent.py lines 596-776).

The sqlite `registrations` table itself (its uniqueness constraint and
timestamp default) is defined outside src/, so the store is modelled from
the spec; the endpoints over it are embedded from the source. -/

/-- One stored registration row. -/
structure StoredReg where
  pubkey_ed25519 : List Nat
  pubkey_bls : List Nat
  sig_ed25519 : List Nat
  sig_bls : List Nat
  operator : List Nat
  contract : Option (List Nat)
  timestamp : Nat
deriving DecidableEq, Repr

/-- Registration kind: `true` for solo (NULL contract), `false` for
contract (sent.py line 699 derives the "type" field this way). -/
def regKind (r : StoredReg) : Bool := r.contract.isNone

/-- Two rows occupy the same storage slot when they agree on
`(pubkey_ed25519, kind)`. -/
def sameSlot (a b : StoredReg) : Prop :=
  a.pubkey_ed25519 = b.pubkey_ed25519 ∧ regKind a = regKind b

/-- Every pair of stored rows occupies distinct `(pubkey, kind)` slots. -/
def slotUnique (db : List StoredReg) : Prop :=
  db.Pairwise (fun a b => ¬ sameSlot a b)

/-- Modelled from the spec: the durable `registrations` table's
`INSERT OR REPLACE` (sent.py lines 634-649) under the table's
`(primary_pubkey, kind)` uniqueness constraint, which is not in src/;
§4.4 specifies `upsert(primary_pubkey, kind, material, timestamp)` as
replacing any existing record with the same `(primary_pubkey, kind)` and
refreshing its timestamp.  `r.timestamp` is the insertion time. -/
def registrations_upsert (db : List StoredReg) (r : StoredReg) : List StoredReg :=
  r :: db.filter (fun q =>
    !(q.pubkey_ed25519 == r.pubkey_ed25519 && regKind q == regKind r))

/-- The store state after a sequence of submissions, oldest first. -/
def dbOfOps (ops : List StoredReg) : List StoredReg :=
  ops.foldl registrations_upsert []

/-- Insert one row into a list kept sorted by descending timestamp. -/
def insertDescTs (r : StoredReg) : List StoredReg → List StoredReg
  | [] => [r]
  | q :: rest =>
    if q.timestamp ≤ r.timestamp then r :: q :: rest
    else q :: insertDescTs r rest

/-- Sort rows by descending timestamp (the `ORDER BY timestamp DESC` of the
load queries). -/
def sortDescTs (l : List StoredReg) : List StoredReg :=
  l.foldr insertDescTs []

/-- Sorted newest-first by timestamp. -/
def SortedDescTs (l : List StoredReg) : Prop :=
  l.Pairwise (fun a b => b.timestamp ≤ a.timestamp)

/-- Embedding of `load_registrations` (sent.py lines 661-716): the rows whose
`pubkey_ed25519` matches, newest first.  (The route 404s when this list is
empty.) -/
def load_registrations (db : List StoredReg) (pk : List Nat) : List StoredReg :=
  sortDescTs (db.filter (fun q => q.pubkey_ed25519 == pk))

/-- Per-row node scan of `operator_registrations` (sent.py lines 752-758).
The loop body only prints; its `continue` belongs to this inner
`for node in app.nodes` loop, so hitting it merely advances to the next
node and the scan leaves the keep-decision unchanged: the function is
constantly `true`. -/
structure NodeInfo where
  pubkey_ed25519 : List Nat
  active : Bool
deriving DecidableEq, Repr

/-- The inner scan itself: fold the loop body over the nodes.  The state is
whether the row will still be appended afterwards; no branch changes it. -/
def node_scan (nodes : List NodeInfo) (sn_pubkey : List Nat) : Bool :=
  nodes.foldl
    (fun keep node =>
      if node.pubkey_ed25519 == sn_pubkey then
        if node.active then keep else keep
      else keep)
    true

/-- Embedding of `operator_registrations` (sent.py lines 718-776): rows with the given
operator, newest first, each appended after the (ineffective) node
scan. -/
def operator_registrations (db : List StoredReg) (nodes : List NodeInfo)
    (op : List Nat) : List StoredReg :=
  (sortDescTs (db.filter (fun q => q.operator == op))).filter
    (fun q => node_scan nodes q.pubkey_ed25519)

/-- Outcome of the `/store` route: a JSON success response, or an
exception propagating out of the handler (HTTP 500). -/
inductive StoreOutcome
  | raised (e : SigError)
  | success (regType : String)
deriving DecidableEq, Repr

/-- Embedding of `store_registration` (sent.py lines 596-658) after query parsing: run
`check_reg_keys_sigs`; on failure the handler's `except` block executes
`raise e` (line 631), so the exception propagates — the
`return json_response(\x7b"error": ...\x7d)` on line 632 is unreachable.
On success the row is upserted and a success response returned. -/
def store_registration (is_valid_point : List Nat → Bool)
    (verify : List Nat → List Nat → List Nat → Bool) (p : RegParams)
    (db : List StoredReg) (now : Nat) : StoreOutcome × List StoredReg :=
  match check_reg_keys_sigs is_valid_point verify p with
  | .error e => (.raised e, db)
  | .ok _ =>
    (.success (if p.contract.isSome then ("contract") else ("solo")),
     registrations_upsert db
       ⟨p.pubkey_ed25519, p.pubkey_bls, p.sig_ed25519, p.sig_bls,
        p.operator, p.contract, now⟩)

/-! Section: the /validate endpoint (sent.py lines 889-1049).

Embedded from line 957 on, i.e. after `parse_query_params` and
`check_reg_keys_sigs` have succeeded (query parsing is the external HTTP
layer; the key checks are `check_reg_keys_sigs` above).  Ethereum addresses
are opaque identities embedded as `Nat`.  A reserved address that fails
`raw_eth_addr` is `ResAddr.invalid`; a reserved stake that fails
`parse_currency` is `none`. -/

/-- A reserved contributor address as it leaves the per-entry
`raw_eth_addr` call: parsed, or unparseable. -/
inductive ResAddr
  | valid (addr : Nat)
  | invalid
deriving DecidableEq, Repr

/-- The `error_response` codes the stake-validation part of `/validate` can
return, with their structured fields (sent.py lines 837-886). -/
inductive VError
  | bad_request (field detail : String)
  | invalid_contract_addr (detail : String)
  | invalid_fee (detail : String)
  | invalid_res_addr (index addr : Nat)
  | invalid_res_stake (index addr : Nat)
  | wrong_op_stake (stake required : Nat)
  | insufficient_op_stake (stake minimum : Nat)
  | too_much (total maximum : Nat)
  | too_many (max_contributors : Nat)
  | insufficient_res_stake (index addr minimum : Nat)
deriving DecidableEq, Repr

/-- The success payload (sent.py lines 1040-1048): the residual fields are
present only for a multi-contributor registration. -/
structure VSuccess where
  remaining_contribution : Option Nat
  remaining_spots : Option Nat
  remaining_min_contribution : Option Nat
deriving DecidableEq, Repr

/-- Result of the `/validate` route: a success response, a structured
`error_response`, or an exception propagating out of the handler
(HTTP 500). -/
inductive VResult
  | ok (s : VSuccess)
  | err (e : VError)
  | raised (msg : String)
deriving DecidableEq, Repr

/-- The reserved-contributor loop (sent.py lines 1027-1038): ceiling
minimum `(remaining_stake + remaining_spots - 1) // remaining_spots`, error
with 1-based index on a deficit, otherwise deduct and continue.  On every
call reachable from `validate_registration`, `remaining_spots ≥ 1`
throughout (the too-many check bounds the list by `MAX_STAKERS - 1`) and
`remaining_stake - amt` never underflows (the too-much check bounds the
grand total), so `Nat` arithmetic agrees with Python here. -/
def reserved_loop : List (Nat × Nat) → Nat → Nat → Nat → Except VError (Nat × Nat)
  | [], _, remaining_stake, remaining_spots => .ok (remaining_stake, remaining_spots)
  | (addr, amt) :: rest, i, remaining_stake, remaining_spots =>
    let min_contr := (remaining_stake + remaining_spots - 1) / remaining_spots
    if amt < min_contr then
      .error (.insufficient_res_stake (i + 1) addr min_contr)
    else
      reserved_loop rest (i + 1) (remaining_stake - amt) (remaining_spots - 1)

/-- The per-entry reserved parsing loop (sent.py lines 993-1006): the first
unparseable address or stake aborts.  For an unparseable address the error
path itself calls `eth_format(addr)`, which raises on such input, so that
case propagates an exception. -/
def parse_reserved : List (ResAddr × Option Nat) → Nat → Except VResult (List (Nat × Nat))
  | [], _ => .ok []
  | (ResAddr.invalid, _) :: _, _ =>
    .error (.raised ("eth_format raises on an unparseable reserved address"))
  | (ResAddr.valid addr, none) :: _, i =>
    .error (.err (.invalid_res_stake (i + 1) addr))
  | (ResAddr.valid addr, some amt) :: rest, i =>
    match parse_reserved rest (i + 1) with
    | .error e => .error e
    | .ok l => .ok ((addr, amt) :: l)

/-- The stake-validation logic of `/validate` (sent.py lines 957-1049).
`contract`, `res_addr`, `res_stake` and `fee` are the optional query
parameters; `fee = some none` is a present but non-numeric fee string
(which the source maps to -1, failing the range check).  Mirrors the
source's control flow statement by statement; in particular the
`remaining_min_contribution` division on line 1045-1047 raises
`ZeroDivisionError` when `remaining_spots` is 0. -/
def validate_registration (contract : Option Nat) (stake : Nat)
    (res_addr : List ResAddr) (res_stake : List (Option Nat))
    (fee : Option (Option Nat)) : VResult :=
  let solo := contract.isNone
  if solo ∧ res_addr ≠ [] then
    .err (.invalid_contract_addr ("the contract address is required for multi-contributor registrations"))
  else if solo ∧ fee.isSome then
    .err (.invalid_fee ("fee is not applicable to a solo node registration"))
  else if fee.isNone then
    .err (.invalid_fee ("fee is required for a multi-contribution registration"))
  else
    let feeVal : Int := match fee with
      | some (some n) => (n : Int)
      | _ => -1
    if ¬ (0 ≤ feeVal ∧ feeVal ≤ 10000) then
      .err (.invalid_fee ("fee must be an integer between 0 and 10000 (= 100.00%)"))
    else if res_addr.length ≠ res_stake.length then
      .err (.bad_request ("res_addr") ("mismatched reserved address/stake lists"))
    else
      match parse_reserved (res_addr.zip res_stake) 0 with
      | .error r => r
      | .ok reserved =>
        let total_reserved := stake + (reserved.map Prod.snd).sum
        if solo then
          if total_reserved ≠ MAX_STAKE then
            .err (.wrong_op_stake total_reserved MAX_STAKE)
          else
            .ok ⟨none, none, none⟩
        else if stake < MIN_OP_STAKE then
          .err (.insufficient_op_stake stake MIN_OP_STAKE)
        else if total_reserved > MAX_STAKE then
          .err (.too_much total_reserved MAX_STAKE)
        else if 1 + reserved.length > MAX_STAKERS then
          .err (.too_many (MAX_STAKERS - 1))
        else
          match reserved_loop reserved 0 (MAX_STAKE - stake) (MAX_STAKERS - 1) with
          | .error e => .err e
          | .ok (rem, spots) =>
            if spots = 0 then
              .raised ("ZeroDivisionError: integer division or modulo by zero")
            else
              .ok ⟨some rem, some spots, some ((rem + spots - 1) / spots)⟩

/-- A multi-contributor `/validate` request whose reserved entries all
parse and whose fee is the valid value 100: the common shape the claims
exercise. -/
def validMulti (stake : Nat) (res : List (Nat × Nat)) : VResult :=
  validate_registration (some 1) stake (res.map fun p => ResAddr.valid p.1)
    (res.map fun p => some p.2) (some (some 100))

/-- Operator-stake prefix sum of a multi-contributor plan: the operator's
stake plus the first `i` reserved amounts ("prefix ending at index `i`",
the operator being entry 0). -/
def prefix_total (stake : Nat) (res : List (Nat × Nat)) (i : Nat) : Nat :=
  stake + ((res.map Prod.snd).take i).sum

/-- The ceiling minimum the next contributor after that prefix must meet
(sent.py line 1029 at that loop state). -/
def next_min_contribution (stake : Nat) (res : List (Nat × Nat)) (i : Nat) : Nat :=
  (MAX_STAKE - prefix_total stake res i + (MAX_STAKERS - 1 - i) - 1) /
    (MAX_STAKERS - 1 - i)

/-! Section: theorems settling the claims. -/

/-- C3 (code divergence): a shortfall in `check_stakes` raises, but the
message is the source's literal placeholder text — the `raise` on line 797
lacks the `f` prefix, so neither the index nor the computed minimum is
interpolated.  The two runs below fail at different indices (0 and 1) with
different minimums (30_000_000_000 and 10_000_000_000) yet produce the
identical constant message. -/
theorem C3_check_stakes_deficit_message_is_constant :
    check_stakes [1] 120000000000 [7] 10 =
      Except.error ("reserved stake [i] (\x7bstakers[i]\x7d) is too low (\x7bstakes[i]\x7d < \x7breqd\x7d)")
    ∧ check_stakes [30000000000, 1] 120000000000 [1, 2] 10 =
      Except.error ("reserved stake [i] (\x7bstakers[i]\x7d) is too low (\x7bstakes[i]\x7d < \x7breqd\x7d)") :=
  ⟨rfl, rfl⟩

/-- C2 (code divergence): every solo `/validate` request fails the fee
check — without a fee the `elif "fee" not in params` branch (line 972)
fires even for solo, and with a fee the solo branch above it fires — so a
solo plan staking exactly `MAX_STAKE` is not accepted, and the off-by-one
stakes are rejected with `invalid_fee`, not with the wrong-total error. -/
theorem C2_solo_always_fee_error :
    validate_registration none MAX_STAKE [] [] none =
      VResult.err (.invalid_fee ("fee is required for a multi-contribution registration"))
    ∧ validate_registration none (MAX_STAKE - 1) [] [] none =
      VResult.err (.invalid_fee ("fee is required for a multi-contribution registration"))
    ∧ validate_registration none (MAX_STAKE + 1) [] [] none =
      VResult.err (.invalid_fee ("fee is required for a multi-contribution registration"))
    ∧ validate_registration none MAX_STAKE [] [] (some (some 0)) =
      VResult.err (.invalid_fee ("fee is not applicable to a solo node registration"))
    ∧ (∀ (stake : Nat) (fee : Option (Option Nat)), ∃ d,
        validate_registration none stake [] [] fee = VResult.err (.invalid_fee d)) := by
  refine ⟨rfl, rfl, rfl, rfl, fun stake fee => ?_⟩
  cases fee with
  | none => exact ⟨_, rfl⟩
  | some f => exact ⟨_, rfl⟩

/-- C1 counterexample: the claim's concrete scenario uses
`max_stake = 120_000_000_000_000`, but the endpoint's constant is
`120_000_000_000` (sent.py line 201), so an operator staking
30_000_000_000_000 with a reserved contributor staking exactly
10_000_000_000_000 is rejected as exceeding the maximum stake rather than
accepted. -/
theorem C1_scenario_constants_refuted :
    MAX_STAKE = 120000000000
    ∧ validMulti 30000000000000 [(7, 10000000000000)] =
        VResult.err (.too_much 40000000000000 120000000000) :=
  ⟨rfl, rfl⟩

/-- C5 (code divergence): a multi-contributor plan with `MAX_STAKERS`
reserved entries (so `MAX_STAKERS + 1` contributors) is rejected with the
too-many error, but a plan with exactly `MAX_STAKERS` contributors, each
meeting its computed minimum, is not accepted: after the loop
`remaining_spots` is 0 and computing `remaining_min_contribution`
(line 1045-1047) divides by zero, so the handler raises instead of
returning success. -/
theorem C5_full_plan_division_by_zero :
    validMulti 30000000000
      [(1, 9000000000), (2, 9000000000), (3, 9000000000), (4, 9000000000),
       (5, 9000000000), (6, 9000000000), (7, 9000000000), (8, 9000000000),
       (9, 9000000000), (10, 9000000000)] = VResult.err (.too_many 9)
    ∧ validMulti 30000000000
      [(1, 10000000000), (2, 10000000000), (3, 10000000000), (4, 10000000000),
       (5, 10000000000), (6, 10000000000), (7, 10000000000), (8, 10000000000),
       (9, 10000000000)] =
      VResult.raised ("ZeroDivisionError: integer division or modulo by zero") :=
  ⟨rfl, rfl⟩

/-- C10 (code divergence): a `/store` request whose registration fails
validation is not answered with a structured error result: the handler's
`except` block re-raises the exception (`raise e`, line 631) before the
error-response return on line 632, so the fault propagates.  Here the
signature check fails and the outcome is the raised exception, with the
store left untouched. -/
theorem C10_store_reraises_validation_failure :
    store_registration (fun _ => true) (fun _ _ _ => false)
      ⟨List.replicate 32 0, List.replicate 64 0, List.replicate 64 0,
       List.replicate 128 0, List.replicate 20 0, none⟩ [] 0 =
      (StoreOutcome.raised SigError.invalid_ed25519_signature, []) :=
  rfl

/-- C9 (code divergence): a stored registration whose service-node pubkey
matches an active node in the snapshot is still returned by
`operator_registrations` — the `continue` on line 758 only advances the
inner `for node in app.nodes` scan, which computes nothing, so the row is
appended regardless; in general the result does not depend on the node
snapshot at all. -/
theorem C9_active_node_registration_not_suppressed :
    operator_registrations [⟨[1], [2], [3], [4], [9], none, 5⟩]
      [⟨[1], true⟩] [9] = [⟨[1], [2], [3], [4], [9], none, 5⟩]
    ∧ (∀ (db : List StoredReg) (nodes : List NodeInfo) (op : List Nat),
        operator_registrations db nodes op =
          sortDescTs (db.filter (fun q => q.operator == op))) := by
  constructor
  · rfl
  · intro db nodes op
    have hscan : ∀ pk, node_scan nodes pk = true := by
      intro pk
      unfold node_scan
      induction nodes with
      | nil => rfl
      | cons n rest ih =>
        simp only [List.foldl_cons, ite_self] at ih ⊢
        exact ih
    unfold operator_registrations
    simp [hscan]

/-- C1 (amended scenario): the reserved-contributor loop of `/validate`
rejects entry `i` with `insufficient_res_stake`, its 1-based index and the
ceiling minimum exactly when the amount is below
`ceil(remaining_stake / remaining_spots)`, and otherwise deducts the amount
and one spot; with the endpoint's constants (`MAX_STAKE = 120_000_000_000`,
`MAX_STAKERS = 10`) an operator staking 30_000_000_000 leaves
remaining_stake 90_000_000_000 and remaining_spots 9, a reserved
contributor staking less than 10_000_000_000 is rejected, and one staking
exactly that amount is accepted. -/
theorem C1_reserved_ceiling_rule :
    (∀ (i rem spots addr amt : Nat) (rest : List (Nat × Nat)),
        amt < (rem + spots - 1) / spots →
        reserved_loop ((addr, amt) :: rest) i rem spots =
          Except.error (.insufficient_res_stake (i + 1) addr ((rem + spots - 1) / spots)))
    ∧ (∀ (i rem spots addr amt : Nat) (rest : List (Nat × Nat)),
        ¬ amt < (rem + spots - 1) / spots →
        reserved_loop ((addr, amt) :: rest) i rem spots =
          reserved_loop rest (i + 1) (rem - amt) (spots - 1))
    ∧ validMulti 30000000000 [] =
        VResult.ok ⟨some 90000000000, some 9, some 10000000000⟩
    ∧ validMulti 30000000000 [(7, 9999999999)] =
        VResult.err (.insufficient_res_stake 1 7 10000000000)
    ∧ validMulti 30000000000 [(7, 10000000000)] =
        VResult.ok ⟨some 80000000000, some 8, some 10000000000⟩ := by
  refine ⟨?_, ?_, rfl, rfl, rfl⟩
  · intro i rem spots addr amt rest h
    simp only [reserved_loop]
    rw [if_pos h]
  · intro i rem spots addr amt rest h
    simp only [reserved_loop]
    rw [if_neg h]

/-- Witness for C1_reserved_ceiling_rule: a reserved contributor staking 5
against remaining stake 90_000_000_000 over 9 spots is rejected with index
1 and minimum 10_000_000_000. -/
theorem C1_reserved_ceiling_rule_witness :
    reserved_loop [(7, 5)] 0 90000000000 9 =
      Except.error (.insufficient_res_stake 1 7 10000000000) :=
  C1_reserved_ceiling_rule.1 0 90000000000 9 7 5 [] (by decide)

/-- C4 counterexample: under the floor-division rule of `check_stakes` the
claimed prefix inequality fails.  The single-staker plan [119_999_999_999]
is accepted (total 120_000_000_000, max_stakers 10), yet after the prefix
ending at index 0 the unfilled stake is 1, the spots remaining are 9, the
minimum possible next contribution is 1 // 9 = 0, and
sum + (max_stakers - 0) * 0 = 119_999_999_999 < 120_000_000_000. -/
theorem C4_floor_rule_counterexample :
    check_stakes [119999999999] 120000000000 [7] 10 = Except.ok ()
    ∧ 119999999999 + (10 - 0) * ((120000000000 - 119999999999) / 9) <
        120000000000 :=
  ⟨rfl, by decide⟩

/-- Helper: a prefix sum is at most the whole sum. -/
theorem sum_take_le (l : List Nat) (i : Nat) : (l.take i).sum ≤ l.sum := by
  conv_rhs => rw [← List.take_append_drop i l]
  rw [List.sum_append]
  exact Nat.le_add_right _ _

/-- Helper: the ceiling division `(a + b - 1) / b` multiplied back by `b`
covers `a`. -/
theorem le_mul_ceil (a b : Nat) (hb : 1 ≤ b) : a ≤ b * ((a + b - 1) / b) := by
  have key := Nat.div_add_mod (a + b - 1) b
  have hlt : (a + b - 1) % b < b := Nat.mod_lt _ (by omega)
  generalize hx : b * ((a + b - 1) / b) = x at key ⊢
  generalize hr : (a + b - 1) % b = r at key hlt
  omega

/-- Helper: the reserved loop with all-parseable entries, as produced by
`validMulti`, parses back to the entry list itself. -/
theorem parse_reserved_all_valid (res : List (Nat × Nat)) (i : Nat) :
    parse_reserved ((res.map fun p => ResAddr.valid p.1).zip
      (res.map fun p => some p.2)) i = Except.ok res := by
  induction res generalizing i with
  | nil => rfl
  | cons p rest ih =>
    obtain ⟨a, b⟩ := p
    have ih2 := ih (i + 1)
    simp only [List.zip] at ih2 ⊢
    simp only [List.map_cons, List.zipWith_cons_cons, parse_reserved, ih2]

/-- Helper: a successful run of the reserved loop consumes one spot per
entry. -/
theorem reserved_loop_ok_spots (l : List (Nat × Nat)) :
    ∀ (i rem spots rem2 spots2 : Nat),
      reserved_loop l i rem spots = Except.ok (rem2, spots2) →
      spots2 = spots - l.length := by
  induction l with
  | nil =>
    intro i rem spots rem2 spots2 h
    simp only [reserved_loop, Except.ok.injEq, Prod.mk.injEq] at h
    simp [h.2]
  | cons p rest ih =>
    intro i rem spots rem2 spots2 h
    obtain ⟨a, b⟩ := p
    simp only [reserved_loop] at h
    split at h
    · exact absurd h (by simp)
    · have := ih (i + 1) (rem - b) (spots - 1) rem2 spots2 h
      simp only [List.length_cons]
      omega

/-- C4 (amended): under the `/validate` endpoint's ceiling-division rule,
every accepted multi-contributor plan is completable: for every prefix
ending at index `i` (the operator being entry 0), the prefix total plus
`(max_stakers - i)` times the ceiling minimum the next contributor must
meet covers `MAX_STAKE`. -/
theorem C4_validate_accepted_plans_completable
    (stake : Nat) (res : List (Nat × Nat)) (s : VSuccess)
    (h : validMulti stake res = VResult.ok s) (i : Nat) (hi : i ≤ res.length) :
    MAX_STAKE ≤ prefix_total stake res i +
      (MAX_STAKERS - i) * next_min_contribution stake res i := by
  have hM : MAX_STAKERS = 10 := rfl
  unfold validMulti validate_registration at h
  simp only [Option.isNone_some, Bool.false_eq_true, false_and, if_false,
    Option.isSome_some, Option.isNone_none, List.length_map,
    parse_reserved_all_valid, ite_false, not_false_eq_true,
    ne_eq, not_true_eq_false] at h
  split at h
  · exact VResult.noConfusion h
  · split at h
    · exact VResult.noConfusion h
    · split at h
      · exact VResult.noConfusion h
      · split at h
        · exact VResult.noConfusion h
        · rename_i hfee hop htot hlen
          split at h
          · exact VResult.noConfusion h
          · rename_i x rem spots hloop
            split at h
            · exact VResult.noConfusion h
            · rename_i hspots
              have hlen8 : res.length ≤ 8 := by
                have := reserved_loop_ok_spots res 0 (MAX_STAKE - stake)
                  (MAX_STAKERS - 1) rem spots hloop
                omega
              have hS : prefix_total stake res i ≤ MAX_STAKE := by
                have h1 : ((res.map Prod.snd).take i).sum ≤ (res.map Prod.snd).sum :=
                  sum_take_le _ _
                unfold prefix_total
                omega
              have hb : 1 ≤ MAX_STAKERS - 1 - i := by omega
              have hceil : MAX_STAKE - prefix_total stake res i ≤
                  (MAX_STAKERS - 1 - i) * next_min_contribution stake res i := by
                unfold next_min_contribution
                exact le_mul_ceil _ _ hb
              have hmul : (MAX_STAKERS - 1 - i) * next_min_contribution stake res i ≤
                  (MAX_STAKERS - i) * next_min_contribution stake res i :=
                Nat.mul_le_mul_right _ (by omega)
              omega

/-- Witness for C4_validate_accepted_plans_completable: the accepted plan
with operator stake 30_000_000_000 and one reserved contributor of
10_000_000_000, at the prefix ending at index 1. -/
theorem C4_validate_accepted_plans_completable_witness :
    MAX_STAKE ≤ prefix_total 30000000000 [(7, 10000000000)] 1 +
      (MAX_STAKERS - 1) * next_min_contribution 30000000000 [(7, 10000000000)] 1 :=
  C4_validate_accepted_plans_completable 30000000000 [(7, 10000000000)]
    ⟨some 80000000000, some 8, some 10000000000⟩ rfl 1 (by decide)

/-- C7: `check_reg_keys_sigs` errors exactly when one of its checks fails,
in source order with a distinct error each: 32-byte valid-point primary
pubkey, 64-byte secondary pubkey, 20-byte operator address, 20-byte
contract address when present, and finally the primary signature verifying
over the concatenation of the raw primary and secondary pubkey bytes (no
separator), with the invalid-primary-signature error when verification
rejects. -/
theorem C7_check_reg_keys_sigs_characterization
    (ivp : List Nat → Bool) (vf : List Nat → List Nat → List Nat → Bool)
    (p : RegParams) :
    (check_reg_keys_sigs ivp vf p = Except.ok () ↔
      (p.pubkey_ed25519.length = 32 ∧ ivp p.pubkey_ed25519 = true ∧
       p.pubkey_bls.length = 64 ∧ p.operator.length = 20 ∧
       (∀ c, p.contract = some c → c.length = 20) ∧
       vf p.pubkey_ed25519 (p.pubkey_ed25519 ++ p.pubkey_bls) p.sig_ed25519 = true))
    ∧ (check_reg_keys_sigs ivp vf p = Except.error SigError.invalid_ed25519_pubkey ↔
       (p.pubkey_ed25519.length = 32 ∧ ivp p.pubkey_ed25519 = true → False))
    ∧ (check_reg_keys_sigs ivp vf p = Except.error SigError.invalid_bls_pubkey ↔
       (p.pubkey_ed25519.length = 32 ∧ ivp p.pubkey_ed25519 = true ∧
        p.pubkey_bls.length ≠ 64))
    ∧ (check_reg_keys_sigs ivp vf p = Except.error SigError.invalid_operator_address ↔
       (p.pubkey_ed25519.length = 32 ∧ ivp p.pubkey_ed25519 = true ∧
        p.pubkey_bls.length = 64 ∧ p.operator.length ≠ 20))
    ∧ (check_reg_keys_sigs ivp vf p = Except.error SigError.invalid_contract_address ↔
       (p.pubkey_ed25519.length = 32 ∧ ivp p.pubkey_ed25519 = true ∧
        p.pubkey_bls.length = 64 ∧ p.operator.length = 20 ∧
        ∃ c, p.contract = some c ∧ c.length ≠ 20))
    ∧ (check_reg_keys_sigs ivp vf p = Except.error SigError.invalid_ed25519_signature ↔
       (p.pubkey_ed25519.length = 32 ∧ ivp p.pubkey_ed25519 = true ∧
        p.pubkey_bls.length = 64 ∧ p.operator.length = 20 ∧
        (∀ c, p.contract = some c → c.length = 20) ∧
        vf p.pubkey_ed25519 (p.pubkey_ed25519 ++ p.pubkey_bls) p.sig_ed25519 = false)) := by
  obtain ⟨pk, bls, se, sb, op, ct⟩ := p
  cases ct <;> simp only [check_reg_keys_sigs] <;>
    split_ifs with h1 h2 h3 h4 h5 <;>
    first
      | (rcases h1 with h1 | h1 <;> simp_all)
      | simp_all

/-- Witness for C7_check_reg_keys_sigs_characterization: well-formed key
material with trusting primitives passes every check. -/
theorem C7_check_reg_keys_sigs_characterization_witness :
    check_reg_keys_sigs (fun _ => true) (fun _ _ _ => true)
      ⟨List.replicate 32 0, List.replicate 64 0, List.replicate 64 0,
       List.replicate 128 0, List.replicate 20 0, none⟩ = Except.ok () :=
  (C7_check_reg_keys_sigs_characterization (fun _ => true) (fun _ _ _ => true)
      ⟨List.replicate 32 0, List.replicate 64 0, List.replicate 64 0,
       List.replicate 128 0, List.replicate 20 0, none⟩).1.mpr
    ⟨by decide, rfl, by decide, by decide, fun c hc => Option.noConfusion hc, rfl⟩

/-- Helper: inserting into the timestamp-sorted list is a permutation of
consing. -/
theorem perm_insertDescTs (r : StoredReg) (l : List StoredReg) :
    List.Perm (insertDescTs r l) (r :: l) := by
  induction l with
  | nil => exact List.Perm.refl _
  | cons q t ih =>
    unfold insertDescTs
    split
    · exact List.Perm.refl _
    · exact (ih.cons q).trans (List.Perm.swap r q t)

/-- Helper: sorting by descending timestamp permutes the list. -/
theorem perm_sortDescTs (l : List StoredReg) : List.Perm (sortDescTs l) l := by
  induction l with
  | nil => exact List.Perm.refl _
  | cons q t ih => exact (perm_insertDescTs q (sortDescTs t)).trans (ih.cons q)

/-- Helper: insertion preserves descending-timestamp sortedness. -/
theorem sorted_insertDescTs (r : StoredReg) (l : List StoredReg)
    (h : SortedDescTs l) : SortedDescTs (insertDescTs r l) := by
  induction l with
  | nil => simp [insertDescTs, SortedDescTs]
  | cons q t ih =>
    unfold SortedDescTs at h ⊢
    rw [List.pairwise_cons] at h
    unfold insertDescTs
    split
    · rename_i hle
      rw [List.pairwise_cons]
      refine ⟨?_, List.pairwise_cons.mpr h⟩
      intro x hx
      rcases List.mem_cons.mp hx with hx | hx
      · exact hx ▸ hle
      · exact Nat.le_trans (h.1 x hx) hle
    · rename_i hgt
      rw [List.pairwise_cons]
      refine ⟨?_, ih h.2⟩
      intro x hx
      rcases List.mem_cons.mp ((perm_insertDescTs r t).mem_iff.mp hx) with hx | hx
      · subst hx
        omega
      · exact h.1 x hx

/-- Helper: the timestamp sort produces a newest-first list. -/
theorem sorted_sortDescTs (l : List StoredReg) : SortedDescTs (sortDescTs l) := by
  induction l with
  | nil => exact List.Pairwise.nil
  | cons q t ih => exact sorted_insertDescTs q (sortDescTs t) ih

/-- Helper: the upsert keeps slots unique. -/
theorem slotUnique_upsert (db : List StoredReg) (r : StoredReg)
    (h : slotUnique db) : slotUnique (registrations_upsert db r) := by
  unfold slotUnique registrations_upsert at *
  rw [List.pairwise_cons]
  refine ⟨?_, h.filter _⟩
  intro q hq
  have hf := List.of_mem_filter hq
  simp only [Bool.not_eq_eq_eq_not, Bool.not_true, Bool.and_eq_false_imp,
    beq_eq_false_iff_ne, ne_eq, beq_iff_eq] at hf
  intro hss
  unfold sameSlot at hss
  by_cases hpk : q.pubkey_ed25519 = r.pubkey_ed25519
  · exact (hf hpk) hss.2.symm
  · exact hpk hss.1.symm

/-- Helper: any store state reachable by upserts from empty has pairwise
distinct `(pubkey, kind)` slots. -/
theorem slotUnique_dbOfOps (ops : List StoredReg) : slotUnique (dbOfOps ops) := by
  suffices h : ∀ db, slotUnique db → slotUnique (ops.foldl registrations_upsert db) from
    h [] List.Pairwise.nil
  induction ops with
  | nil => exact fun db h => h
  | cons r rest ih => exact fun db h => ih _ (slotUnique_upsert _ _ h)

/-- Helper: restricting a slot-unique store to one pubkey leaves rows of
pairwise distinct kinds. -/
theorem pairwise_kind_of_filter_pk (db : List StoredReg) (pk : List Nat)
    (h : slotUnique db) :
    (db.filter (fun q => q.pubkey_ed25519 == pk)).Pairwise
      (fun a b => regKind a ≠ regKind b) := by
  unfold slotUnique at h
  refine List.Pairwise.imp_of_mem ?_ (h.filter _)
  intro a b ha hb hns hk
  have hpa := List.of_mem_filter ha
  have hpb := List.of_mem_filter hb
  simp only [beq_iff_eq] at hpa hpb
  exact hns ⟨hpa.trans hpb.symm, hk⟩

/-- Helper: a list of rows with pairwise distinct boolean kinds has at most
two elements. -/
theorem length_le_two_of_pairwise_kind (l : List StoredReg)
    (h : l.Pairwise (fun a b => regKind a ≠ regKind b)) : l.length ≤ 2 := by
  match l with
  | [] => simp
  | [_] => simp
  | [_, _] => simp
  | a :: b :: c :: t =>
    exfalso
    rw [List.pairwise_cons] at h
    obtain ⟨h1, h2⟩ := h
    rw [List.pairwise_cons] at h2
    have hab := h1 b (by simp)
    have hac := h1 c (by simp)
    have hbc := h2.1 c (by simp)
    cases hA : regKind a <;> cases hB : regKind b <;> cases hC : regKind c <;>
      simp_all

/-- Helper: at most one row of each kind survives the kind filter. -/
theorem filter_kind_le_one (l : List StoredReg) (b : Bool)
    (h : l.Pairwise (fun a b2 => regKind a ≠ regKind b2)) :
    (l.filter (fun q => regKind q == b)).length ≤ 1 := by
  cases hm : l.filter (fun q => regKind q == b) with
  | nil => simp
  | cons a m2 =>
    cases m2 with
    | nil => simp
    | cons c t =>
      exfalso
      have hp : (a :: c :: t).Pairwise (fun x y => regKind x ≠ regKind y) :=
        hm ▸ h.filter _
      have hma : a ∈ l.filter (fun q => regKind q == b) := by rw [hm]; simp
      have hmc : c ∈ l.filter (fun q => regKind q == b) := by rw [hm]; simp
      have pa := List.of_mem_filter hma
      have pc := List.of_mem_filter hmc
      simp only [beq_iff_eq] at pa pc
      rw [List.pairwise_cons] at hp
      exact hp.1 c (by simp) (pa.trans pc.symm)

/-- Helper: after an upsert, the rows in the new record's slot are exactly
the new record. -/
theorem upsert_filter_slot (db : List StoredReg) (r : StoredReg) :
    (registrations_upsert db r).filter
      (fun q => q.pubkey_ed25519 == r.pubkey_ed25519 && regKind q == regKind r) =
      [r] := by
  unfold registrations_upsert
  rw [List.filter_cons]
  rw [if_pos (by simp)]
  rw [List.filter_filter]
  have hfalse : ∀ q : StoredReg,
      ((q.pubkey_ed25519 == r.pubkey_ed25519 && regKind q == regKind r) &&
        !(q.pubkey_ed25519 == r.pubkey_ed25519 && regKind q == regKind r)) = false := by
    intro q
    cases q.pubkey_ed25519 == r.pubkey_ed25519 && regKind q == regKind r <;> rfl
  simp only [hfalse, List.filter_false]

/-- C8: the registration store is dual-slot and last-write-wins: after any
sequence of `store` submissions at most one record per `(pubkey, kind)`
slot exists; `load_registrations` for a pubkey returns at most two records
(at most one solo and one contract), newest timestamp first; and an upsert
leaves exactly the new record (with its fresh timestamp) in its slot. -/
theorem C8_registration_store_dual_slot (ops : List StoredReg) (pk : List Nat)
    (db : List StoredReg) (r : StoredReg) :
    slotUnique (dbOfOps ops)
    ∧ (load_registrations (dbOfOps ops) pk).length ≤ 2
    ∧ ((load_registrations (dbOfOps ops) pk).filter
        (fun q => regKind q == true)).length ≤ 1
    ∧ ((load_registrations (dbOfOps ops) pk).filter
        (fun q => regKind q == false)).length ≤ 1
    ∧ SortedDescTs (load_registrations (dbOfOps ops) pk)
    ∧ (registrations_upsert db r).filter
        (fun q => q.pubkey_ed25519 == r.pubkey_ed25519 && regKind q == regKind r) =
        [r] := by
  have hsu := slotUnique_dbOfOps ops
  have hpk := pairwise_kind_of_filter_pk (dbOfOps ops) pk hsu
  refine ⟨hsu, ?_, ?_, ?_, sorted_sortDescTs _, upsert_filter_slot db r⟩
  · unfold load_registrations
    rw [(perm_sortDescTs _).length_eq]
    exact length_le_two_of_pairwise_kind _ hpk
  · unfold load_registrations
    rw [((perm_sortDescTs _).filter _).length_eq]
    exact filter_kind_le_one _ true hpk
  · unfold load_registrations
    rw [((perm_sortDescTs _).filter _).length_eq]
    exact filter_kind_le_one _ false hpk

theorem foldl_reverse_ofDigits (L : List Nat) (a : Nat) :
    (L.reverse).foldl (fun x d => 10 * x + d) a = a * 10 ^ L.length + Nat.ofDigits 10 L := by
  induction L generalizing a with
  | nil => simp
  | cons d t ih =>
    rw [List.reverse_cons, List.foldl_append, ih]
    simp only [List.foldl_cons, List.foldl_nil, Nat.ofDigits_cons, List.length_cons]
    ring

theorem pieceVal_map_digit (l : List Nat) :
    pieceVal (l.map PyChar.digit) = l.foldl (fun x d => 10 * x + d) 0 := by
  simp [pieceVal, List.foldl_map]

theorem foldl_pyRepr (n : Nat) : (pyRepr n).foldl (fun x d => 10 * x + d) 0 = n := by
  unfold pyRepr
  split
  · simp [*]
  · rw [foldl_reverse_ofDigits]
    simp [Nat.ofDigits_digits]

theorem foldl_padZeros (w : Nat) (l : List Nat) :
    (padZeros w l).foldl (fun x d => 10 * x + d) 0 = l.foldl (fun x d => 10 * x + d) 0 := by
  unfold padZeros
  have hz : ∀ k, (List.replicate k (0:Nat)).foldl (fun x d => 10 * x + d) 0 = 0 := by
    intro k
    induction k with
    | zero => rfl
    | succ k ih => simpa [List.replicate_succ] using ih
  rw [List.foldl_append, hz]

theorem rstrip0_length_le (L : List Nat) : (rstrip0 L).length ≤ L.length := by
  unfold rstrip0
  rw [List.length_reverse]
  calc (L.reverse.dropWhile (fun d => d == 0)).length
      ≤ L.reverse.length := (List.dropWhile_sublist _).length_le
    _ = L.length := List.length_reverse L

theorem foldl_eq_zero_of_all_zero (L : List Nat) (h : ∀ d ∈ L, d = 0) :
    L.foldl (fun x d => 10 * x + d) 0 = 0 := by
  induction L with
  | nil => rfl
  | cons d t ih =>
    have hd := h d (by simp)
    subst hd
    simpa using ih (fun e he => h e (List.mem_cons_of_mem _ he))

theorem rstrip0_ne_nil (L : List Nat)
    (h : L.foldl (fun x d => 10 * x + d) 0 ≠ 0) : rstrip0 L ≠ [] := by
  intro hnil
  unfold rstrip0 at hnil
  rw [List.reverse_eq_nil_iff, List.dropWhile_eq_nil_iff] at hnil
  apply h
  apply foldl_eq_zero_of_all_zero
  intro d hd
  simpa using hnil d (List.mem_reverse.mpr hd)

theorem rstrip0_restore (L : List Nat) :
    rstrip0 L ++ List.replicate (L.length - (rstrip0 L).length) 0 = L := by
  unfold rstrip0
  rw [List.length_reverse]
  have hsplit : L.reverse.takeWhile (fun d => d == 0) ++
      L.reverse.dropWhile (fun d => d == 0) = L.reverse :=
    List.takeWhile_append_dropWhile _ _
  have htw : L.reverse.takeWhile (fun d => d == 0) =
      List.replicate (L.reverse.takeWhile (fun d => d == 0)).length 0 := by
    rw [List.eq_replicate_iff]
    exact ⟨rfl, fun b hb => by simpa using List.mem_takeWhile_imp hb⟩
  have hlen : L.length =
      (L.reverse.takeWhile (fun d => d == 0)).length +
      (L.reverse.dropWhile (fun d => d == 0)).length := by
    have hc := congrArg List.length hsplit
    rw [List.length_append, List.length_reverse] at hc
    omega
  have hcount : L.length - (L.reverse.dropWhile (fun d => d == 0)).length =
      (L.reverse.takeWhile (fun d => d == 0)).length := by omega
  rw [hcount, ← htw]
  have hrev : (L.reverse.takeWhile (fun d => d == 0)).reverse =
      L.reverse.takeWhile (fun d => d == 0) := by
    conv_lhs => rw [htw]
    rw [List.reverse_replicate, ← htw]
  calc (L.reverse.dropWhile (fun d => d == 0)).reverse ++
        L.reverse.takeWhile (fun d => d == 0)
      = (L.reverse.dropWhile (fun d => d == 0)).reverse ++
        (L.reverse.takeWhile (fun d => d == 0)).reverse := by rw [hrev]
    _ = (L.reverse.takeWhile (fun d => d == 0) ++
        L.reverse.dropWhile (fun d => d == 0)).reverse := by
          rw [List.reverse_append]
    _ = L.reverse.reverse := by rw [hsplit]
    _ = L := List.reverse_reverse L

theorem pyRepr_ne_nil (n : Nat) : pyRepr n ≠ [] := by
  unfold pyRepr
  split
  · simp
  · rename_i h
    rw [Ne, List.reverse_eq_nil_iff]
    exact Nat.digits_ne_nil_iff_ne_zero.mpr h

theorem pyRepr_length_le (r d : Nat) (h1 : r ≠ 0) (h2 : r < 10 ^ d) :
    (pyRepr r).length ≤ d := by
  unfold pyRepr
  rw [if_neg h1, List.length_reverse]
  by_contra hlt
  push_neg at hlt
  have hb := Nat.base_pow_length_digits_le 10 r (by norm_num) h1
  have h3 : 10 ^ (d + 1) ≤ 10 ^ (Nat.digits 10 r).length :=
    Nat.pow_le_pow_right (by norm_num) hlt
  rw [pow_succ] at h3
  have h4 : 10 ^ d * 10 ≤ 10 * r := le_trans h3 hb
  rw [Nat.mul_comm] at h4
  have h5 : 10 ^ d ≤ r := Nat.le_of_mul_le_mul_left h4 (by norm_num)
  omega

theorem splitDot_digits (l : List Nat) :
    splitDot (l.map PyChar.digit) = [l.map PyChar.digit] := by
  induction l with
  | nil => rfl
  | cons d t ih => simp [splitDot, ih]

theorem splitDot_append_dot (a b : List Nat) :
    splitDot (a.map PyChar.digit ++ PyChar.dot :: b.map PyChar.digit) =
      [a.map PyChar.digit, b.map PyChar.digit] := by
  induction a with
  | nil => simp [splitDot, splitDot_digits]
  | cons d t ih => simp [splitDot, ih]

theorem isDigitPiece_map (l : List Nat) (h : l ≠ []) :
    isDigitPiece (l.map PyChar.digit) = true := by
  unfold isDigitPiece
  cases l with
  | nil => exact absurd rfl h
  | cons d t => simp [List.all_map]

theorem format_currency_eq (x d : Nat) :
    format_currency x d =
      (pyRepr (x / 10 ^ d)).map PyChar.digit ++
        (if x % 10 ^ d = 0 then []
         else PyChar.dot ::
           (rstrip0 (padZeros d (pyRepr (x % 10 ^ d)))).map PyChar.digit) := rfl

theorem parse_currency_one (k : String) (val : List PyChar) (d : Nat)
    (w : List PyChar) (hs : splitDot val = [w]) (hw : isDigitPiece w = true) :
    parse_currency k val d = Except.ok (pieceVal w * 10 ^ d + 0) := by
  simp only [parse_currency, hs]
  rw [if_neg (by simp [hw])]

theorem parse_currency_two (k : String) (val : List PyChar) (d : Nat)
    (w f : List PyChar) (hs : splitDot val = [w, f])
    (hw : isDigitPiece w = true) (hf : isDigitPiece f = true) :
    parse_currency k val d =
      Except.ok (pieceVal w * 10 ^ d +
        pieceVal (if d < f.length then f.take d
          else if f.length < d then
            f ++ List.replicate (d - f.length) (PyChar.digit 0)
          else f)) := by
  simp only [parse_currency, hs]
  rw [if_neg (by simp [hw, hf])]

/-- C6: the currency codec round-trips losslessly: for every non-negative
atomic amount `x` and every number of decimals `d`, parsing the formatted
string back with the same `d` returns exactly `x`. -/
theorem C6_parse_format_currency_roundtrip (x decimal : Nat) (k : String) :
    parse_currency k (format_currency x decimal) decimal = Except.ok x := by
  rw [format_currency_eq]
  by_cases hr : x % 10 ^ decimal = 0
  · rw [if_pos hr, List.append_nil]
    have hd : isDigitPiece ((pyRepr (x / 10 ^ decimal)).map PyChar.digit) = true :=
      isDigitPiece_map _ (pyRepr_ne_nil _)
    rw [parse_currency_one k _ decimal _ (splitDot_digits _) hd]
    rw [pieceVal_map_digit, foldl_pyRepr, Nat.add_zero]
    have hdm := Nat.div_add_mod x (10 ^ decimal)
    rw [hr, Nat.add_zero] at hdm
    rw [Nat.mul_comm] at hdm
    rw [hdm]
  · rw [if_neg hr]
    have hw : isDigitPiece ((pyRepr (x / 10 ^ decimal)).map PyChar.digit) = true :=
      isDigitPiece_map _ (pyRepr_ne_nil _)
    have hvalpad : (padZeros decimal (pyRepr (x % 10 ^ decimal))).foldl
        (fun a d => 10 * a + d) 0 = x % 10 ^ decimal := by
      rw [foldl_padZeros, foldl_pyRepr]
    have hFne : rstrip0 (padZeros decimal (pyRepr (x % 10 ^ decimal))) ≠ [] := by
      apply rstrip0_ne_nil
      rw [hvalpad]
      exact hr
    have hf : isDigitPiece ((rstrip0 (padZeros decimal
        (pyRepr (x % 10 ^ decimal)))).map PyChar.digit) = true :=
      isDigitPiece_map _ hFne
    rw [parse_currency_two k _ decimal _ _ (splitDot_append_dot _ _) hw hf]
    have hlenpad : (padZeros decimal (pyRepr (x % 10 ^ decimal))).length = decimal := by
      unfold padZeros
      rw [List.length_append, List.length_replicate]
      have hle : (pyRepr (x % 10 ^ decimal)).length ≤ decimal :=
        pyRepr_length_le _ _ hr (Nat.mod_lt _ (Nat.pos_pow_of_pos _ (by norm_num)))
      omega
    have hFlen : (rstrip0 (padZeros decimal (pyRepr (x % 10 ^ decimal)))).length ≤
        decimal := by
      calc (rstrip0 (padZeros decimal (pyRepr (x % 10 ^ decimal)))).length
          ≤ (padZeros decimal (pyRepr (x % 10 ^ decimal))).length := rstrip0_length_le _
        _ = decimal := hlenpad
    have hrestore : rstrip0 (padZeros decimal (pyRepr (x % 10 ^ decimal))) ++
        List.replicate (decimal -
          (rstrip0 (padZeros decimal (pyRepr (x % 10 ^ decimal)))).length) 0 =
        padZeros decimal (pyRepr (x % 10 ^ decimal)) := by
      have hre := rstrip0_restore (padZeros decimal (pyRepr (x % 10 ^ decimal)))
      rwa [hlenpad] at hre
    rw [if_neg (by simp only [List.length_map]; omega)]
    have hwhole : pieceVal ((pyRepr (x / 10 ^ decimal)).map PyChar.digit) =
        x / 10 ^ decimal := by
      rw [pieceVal_map_digit, foldl_pyRepr]
    have hdm := Nat.div_add_mod x (10 ^ decimal)
    rw [Nat.mul_comm] at hdm
    by_cases hlt : ((rstrip0 (padZeros decimal (pyRepr (x % 10 ^ decimal)))).map
        PyChar.digit).length < decimal
    · rw [if_pos hlt]
      have hfrac : (rstrip0 (padZeros decimal (pyRepr (x % 10 ^ decimal)))).map
            PyChar.digit ++
          List.replicate (decimal - ((rstrip0 (padZeros decimal
            (pyRepr (x % 10 ^ decimal)))).map PyChar.digit).length)
            (PyChar.digit 0) =
          (padZeros decimal (pyRepr (x % 10 ^ decimal))).map PyChar.digit := by
        rw [List.length_map, ← List.map_replicate (f := PyChar.digit),
          ← List.map_append, hrestore]
      rw [hfrac, hwhole, pieceVal_map_digit, hvalpad, hdm]
    · rw [if_neg hlt]
      have hFeq : rstrip0 (padZeros decimal (pyRepr (x % 10 ^ decimal))) =
          padZeros decimal (pyRepr (x % 10 ^ decimal)) := by
        rw [List.length_map] at hlt
        have hzero : decimal -
            (rstrip0 (padZeros decimal (pyRepr (x % 10 ^ decimal)))).length = 0 := by
          omega
        have hre2 := hrestore
        rw [hzero] at hre2
        simpa using hre2
      rw [hwhole, hFeq, pieceVal_map_digit, hvalpad, hdm]
